import Mathlib

/-!
Verification development for the meta-solver pipeline
(`step_manager.py`, `main_pipeline.py`, `solution_assembler.py`,
`ssh_manager.py`, `config.py`).

The Python sources are shallowly embedded: pure text-processing
functions over Python source text are modelled at the level of the
Python `ast` module (the code only ever inspects the parsed tree), and
effectful interactions (subprocess runs, SSH sessions, file reads and
writes, OpenAI calls) are modelled by explicit environments recording
the response the outside world gives to the k-th interaction of each
kind.  Each embedded function keeps the name of the Python function it
models.
-/

namespace MetaSolver

/-! ### A model of the Python `ast` nodes the code inspects

`step_manager.add_main_block` and `extract_class_name` (and the
identical `solution_assembler.extract_class_name`) look only at:
top-level `ClassDef` nodes, `If` nodes anywhere in the tree whose
`test` is a `Compare` with `left` a `Name` of id `__name__` and at
least one operator `Eq`/`Is`, and nothing else.  The model keeps
exactly the structure those inspections can observe; every other
simple statement is `simple` (carrying its source text) and every
other compound statement is `compound` (carrying its nested block,
since `ast.walk` descends into it). -/

/-- Comparison operators as classified by
`any(isinstance(op, (ast.Eq, ast.Is)) for op in node.test.ops)`:
only `Eq` and `Is` matter, every other operator is `otherOp`. -/
inductive CmpOp where
  | eq
  | is
  | otherOp
deriving DecidableEq, Repr

/-- Expressions, restricted to what the code pattern-matches on:
`Name` nodes, constants, `Compare` nodes, anything else opaque. -/
inductive PyExpr where
  | name (id : String)
  | strConst (value : String)
  | compare (left : PyExpr) (ops : List CmpOp) (comparators : List PyExpr)
  | otherExpr
deriving Repr

/-- Statements: `ClassDef` and `FunctionDef` with their bodies,
`If` with its test, body and orelse, any other simple statement with
its source text, and any other compound statement with its nested
block (which `ast.walk` descends into). -/
inductive PyStmt where
  | classDef (name : String) (body : List PyStmt)
  | functionDef (name : String) (body : List PyStmt)
  | ifStmt (test : PyExpr) (body orelse : List PyStmt)
  | simple (text : String)
  | compound (body : List PyStmt)
deriving Repr

/-- The outcome of `ast.parse` on a source text: either a
`SyntaxError` (the raw text is kept, since the code returns it
unchanged) or a `Module` with its list of top-level statements. -/
inductive PyCode where
  | unparsable (raw : String)
  | module (body : List PyStmt)
deriving Repr

/-- The test of the `has_main` check in `add_main_block`:
an `If` whose test is `Compare(left=Name('__name__'), ops=[...])`
with at least one `Eq` or `Is` operator.  The comparators (the right
side of the comparison) are not inspected by the code. -/
def isMainGuardTest : PyExpr → Bool
  | .compare (.name id) ops _ =>
      id == "__name__" && ops.any (fun o => o == CmpOp.eq || o == CmpOp.is)
  | _ => false

mutual

/-- `ast.walk` restricted to the `has_main` check: does any `If` node
in this statement's subtree satisfy `isMainGuardTest`? -/
def stmtHasMainGuard : PyStmt → Bool
  | .classDef _ body => stmtsHaveMainGuard body
  | .functionDef _ body => stmtsHaveMainGuard body
  | .ifStmt test body orelse =>
      isMainGuardTest test || stmtsHaveMainGuard body || stmtsHaveMainGuard orelse
  | .simple _ => false
  | .compound body => stmtsHaveMainGuard body

/-- `stmtHasMainGuard` over a block of statements. -/
def stmtsHaveMainGuard : List PyStmt → Bool
  | [] => false
  | s :: rest => stmtHasMainGuard s || stmtsHaveMainGuard rest

end

/-- The `has_main` flag computed in `add_main_block` for a parsed
module. -/
def hasMainBlock (body : List PyStmt) : Bool := stmtsHaveMainGuard body

/-- The `__main__` block appended by `add_main_block` for step `n`:
`if __name__ == "__main__": step = Step<n>(); step.execute()`. -/
def mainGuard (n : Nat) : PyStmt :=
  .ifStmt (.compare (.name "__name__") [CmpOp.eq] [.strConst "__main__"])
    [.simple ("step = Step" ++ toString n ++ "()"),
     .simple "step.execute()"] []

/-- `StepManager.add_main_block` (`step_manager.py`): parse the step
code; if no `If` node anywhere in the tree compares `__name__` with
`Eq`/`Is`, append the `__main__` guard; on `SyntaxError` (or any other
exception) return the text unchanged.  Appending the guard text to a
parseable module corresponds, at the `ast` level, to appending the
guard statement to the module body. -/
def add_main_block (code : PyCode) (n : Nat) : PyCode :=
  match code with
  | .unparsable raw => .unparsable raw
  | .module body =>
      if hasMainBlock body then .module body
      else .module (body ++ [mainGuard n])

/-- `StepManager.extract_class_name` (`step_manager.py`), identical to
`SolutionAssembler.extract_class_name` (`solution_assembler.py`):
return the name of the first top-level `ClassDef` among
`ast.iter_child_nodes(tree)`, `none` if there is none or the text does
not parse. -/
def extract_class_name : PyCode → Option String
  | .unparsable _ => none
  | .module body =>
      body.findSome? fun s =>
        match s with
        | .classDef name _ => some name
        | _ => none

/-- Whether a parsed module has at least one top-level class
definition — the condition under which `extract_class_name`
succeeds. -/
def hasTopLevelClass : PyCode → Bool
  | .unparsable _ => false
  | .module body =>
      body.any fun s =>
        match s with
        | .classDef _ _ => true
        | _ => false

/-- Names of all top-level class definitions of a module, in order. -/
def topLevelClassNames : PyCode → List String
  | .unparsable _ => []
  | .module body =>
      body.filterMap fun s =>
        match s with
        | .classDef name _ => some name
        | _ => none

/-- Whether the text already carries a runnable-as-script guard, as
`add_main_block` detects it. -/
def hasGuard : PyCode → Bool
  | .unparsable _ => false
  | .module body => hasMainBlock body

lemma stmtsHaveMainGuard_append (a b : List PyStmt) :
    stmtsHaveMainGuard (a ++ b) = (stmtsHaveMainGuard a || stmtsHaveMainGuard b) := by
  induction a with
  | nil => simp [stmtsHaveMainGuard]
  | cons s rest ih => simp [stmtsHaveMainGuard, ih, Bool.or_assoc]

lemma stmtHasMainGuard_mainGuard (n : Nat) : stmtHasMainGuard (mainGuard n) = true := by
  simp [mainGuard, stmtHasMainGuard, stmtsHaveMainGuard, isMainGuardTest, List.any]

lemma hasMainBlock_append_mainGuard (body : List PyStmt) (n : Nat) :
    hasMainBlock (body ++ [mainGuard n]) = true := by
  simp [hasMainBlock, stmtsHaveMainGuard_append, stmtsHaveMainGuard,
    stmtHasMainGuard_mainGuard]

lemma extract_class_name_add_main_block (code : PyCode) (n : Nat) :
    extract_class_name (add_main_block code n) = extract_class_name code := by
  cases code with
  | unparsable raw => rfl
  | module body =>
      unfold add_main_block
      by_cases h : hasMainBlock body
      · simp [h]
      · simp only [h, if_false, Bool.false_eq_true, extract_class_name]
        rw [List.findSome?_append]
        simp [mainGuard, List.findSome?]

lemma extract_class_name_eq_none_iff (code : PyCode) :
    extract_class_name code = none ↔ hasTopLevelClass code = false := by
  cases code with
  | unparsable raw => simp [extract_class_name, hasTopLevelClass]
  | module body =>
      simp only [extract_class_name, hasTopLevelClass, List.findSome?_eq_none_iff,
        List.any_eq_false]
      constructor
      · intro h s hs
        have := h s hs
        cases s <;> simp_all
      · intro h s hs
        have := h s hs
        cases s <;> simp_all

/-! ### Execution backends: `StepManager.run_step`

`run_step(step_path, execute_remotely, server_config)` either runs the
artifact over SSH (when `execute_remotely and server_config` is
truthy) or as a local subprocess.  The outside world's behaviour is
recorded in `RemoteEnv` (what the SSH session would do) and `LocalEnv`
(what `subprocess.run` would do). -/

/-- A remote-target descriptor from `config.yaml`
(`remote_servers` entries, fields as validated by
`PipelineConfig.validate_config`). -/
structure ServerConfig where
  hostname : String
  port : Nat
  username : String
  password : Option String
  ssh_key_path : String
  execute_remotely : Bool
  steps_to_execute : List Nat
deriving DecidableEq, Repr

/-- Behaviour of the SSH session for one remote run: whether
`establish_connection` succeeds, whether `transfer_file` succeeds, and
the `(stdout, stderr)` pair `execute_command` returns together with
the remote command's exit status.  The exit status is recorded here
because the remote process has one, but `SSHManager.execute_command`
never reads it (`exec_command` only yields the streams). -/
structure RemoteEnv where
  connectOk : Bool
  transferOk : Bool
  cmdOut : String
  cmdErr : String
  exitStatus : Nat
deriving DecidableEq, Repr

/-- Behaviour of `subprocess.run([sys.executable, step_path], ...,
check=True)` for one local run: the child's exit code and captured
streams, and whether some exception other than `CalledProcessError`
was raised. -/
structure LocalEnv where
  exitCode : Nat
  stdout : String
  stderr : String
  raised : Bool
deriving DecidableEq, Repr

/-- `StepManager.run_step` (`step_manager.py`).  Remote branch: taken
when `execute_remotely and server_config` is truthy; connection
failure and transfer failure are failures with fixed messages; after
`execute_command`, success is decided by `if not err:` — emptiness of
stderr — the exit status playing no part.  Local branch: `check=True`
makes a non-zero exit raise `CalledProcessError` (failure carrying
stderr); any other exception yields `(False, "Execution failed.")`;
otherwise `(True, stdout)`. -/
def run_step (execute_remotely : Bool) (server_config : Option ServerConfig)
    (renv : RemoteEnv) (lenv : LocalEnv) : Bool × String :=
  if execute_remotely && server_config.isSome then
    if !renv.connectOk then (false, "SSH connection failed.")
    else if !renv.transferOk then (false, "File transfer failed.")
    else if renv.cmdErr == "" then (true, renv.cmdOut)
    else (false, renv.cmdErr)
  else
    if lenv.raised then (false, "Execution failed.")
    else if lenv.exitCode == 0 then (true, lenv.stdout)
    else (false, lenv.stderr)

/-! ### The execute-and-repair loop: `StepManager.execute_and_fix_step`

The loop interacts with the world through `run_step` (execution),
`get_step_code` (reading the persisted artifact back),
`fix_code_with_gpt4` (the repair oracle, whose internal rate-limit
retries are below this abstraction) and `update_step_code` (persisting
a correction).  `StepWorld` records the response each of those
interactions would get on attempt `k` (0-based); the embedded loop
additionally returns the ordered trace of interactions it performed,
so that counting properties can be stated. -/

/-- World behaviour, indexed by the attempt number `k` of the
execute-and-repair loop. -/
structure StepWorld where
  remoteEnv : Nat → RemoteEnv
  localEnv : Nat → LocalEnv
  readResult : Nat → String
  fixResult : Nat → Option String

/-- One observable interaction of the execute-and-repair loop:
an execution (`remote` tells which backend ran it, `ok` its outcome),
a read-back of the persisted artifact, a repair-oracle call with its
raw result, or a persisted correction. -/
inductive StepEvent where
  | exec (attempt : Nat) (remote : Bool) (ok : Bool)
  | readArtifact (attempt : Nat)
  | oracle (attempt : Nat) (result : Option String)
  | write (content : String)
deriving DecidableEq, Repr

/-- Python truthiness of `corrected_code` in
`execute_and_fix_step`: `None` (API error inside
`fix_code_with_gpt4`) and the empty string are both falsy. -/
def usableCorrection : Option String → Bool
  | none => false
  | some c => !(c == "")

/-- The body of the `while retries < max_retries` loop of
`execute_and_fix_step`, with `k` the current value of `retries` and
`fuel = max_retries - retries`.  Mirrors the Python control flow:
run; on success return `True`; otherwise read the artifact back
(empty read aborts with `False`); ask the oracle; a falsy correction
aborts with `False`; a truthy one is persisted, `retries` is
incremented (after a fixed `time.sleep(2)`, invisible here) and the
loop continues; fuel exhaustion is the `while` condition failing,
returning `False`. -/
def stepLoopGo (w : StepWorld) (er : Bool) (sc : Option ServerConfig) :
    Nat → Nat → Bool × List StepEvent
  | _, 0 => (false, [])
  | k, fuel + 1 =>
      let isRemote := er && sc.isSome
      let r := run_step er sc (w.remoteEnv k) (w.localEnv k)
      if r.1 then (true, [.exec k isRemote true])
      else if w.readResult k == "" then
        (false, [.exec k isRemote false, .readArtifact k])
      else
        match w.fixResult k with
        | none => (false, [.exec k isRemote false, .readArtifact k, .oracle k none])
        | some c =>
            if c == "" then
              (false, [.exec k isRemote false, .readArtifact k, .oracle k (some c)])
            else
              let rest := stepLoopGo w er sc (k + 1) fuel
              (rest.1, .exec k isRemote false :: .readArtifact k ::
                .oracle k (some c) :: .write c :: rest.2)

/-- `StepManager.execute_and_fix_step` (`step_manager.py`), with
`retries` starting at 0.  Returns the Python function's boolean result
paired with the trace of interactions. -/
def execute_and_fix_step (w : StepWorld) (max_retries : Nat) (er : Bool)
    (sc : Option ServerConfig) : Bool × List StepEvent :=
  stepLoopGo w er sc 0 max_retries

/-- Number of executions in a trace. -/
def execCount (tr : List StepEvent) : Nat :=
  tr.countP fun e => match e with | .exec _ _ _ => true | _ => false

/-- Number of repair-oracle calls in a trace. -/
def oracleCount (tr : List StepEvent) : Nat :=
  tr.countP fun e => match e with | .oracle _ _ => true | _ => false

/-- Number of persisted corrections in a trace. -/
def writeCount (tr : List StepEvent) : Nat :=
  tr.countP fun e => match e with | .write _ => true | _ => false

/-- The trace produced by a run of the loop in which every attempt
fails, the artifact stays readable and the oracle always answers
usably: one execution, one read, one oracle call and one persisted
correction per attempt. -/
def failTrace (w : StepWorld) (er : Bool) (sc : Option ServerConfig) :
    Nat → Nat → List StepEvent
  | _, 0 => []
  | k, fuel + 1 =>
      .exec k (er && sc.isSome) false :: .readArtifact k ::
        .oracle k (w.fixResult k) :: .write ((w.fixResult k).getD "") ::
        failTrace w er sc (k + 1) fuel

lemma execCount_append (a b : List StepEvent) :
    execCount (a ++ b) = execCount a + execCount b :=
  List.countP_append _ a b

lemma oracleCount_append (a b : List StepEvent) :
    oracleCount (a ++ b) = oracleCount a + oracleCount b :=
  List.countP_append _ a b

lemma failTrace_append (w : StepWorld) (er : Bool) (sc : Option ServerConfig)
    (k fuel : Nat) :
    failTrace w er sc k (fuel + 1) =
      [.exec k (er && sc.isSome) false, .readArtifact k,
       .oracle k (w.fixResult k), .write ((w.fixResult k).getD "")] ++
        failTrace w er sc (k + 1) fuel := by
  simp [failTrace]

lemma execCount_failTrace (w : StepWorld) (er : Bool) (sc : Option ServerConfig) :
    ∀ fuel k, execCount (failTrace w er sc k fuel) = fuel := by
  intro fuel
  induction fuel with
  | zero => intro k; simp [failTrace, execCount]
  | succ f ih =>
      intro k
      simp [failTrace, execCount, List.countP_cons] at *
      exact ih (k + 1)

lemma oracleCount_failTrace (w : StepWorld) (er : Bool) (sc : Option ServerConfig) :
    ∀ fuel k, oracleCount (failTrace w er sc k fuel) = fuel := by
  intro fuel
  induction fuel with
  | zero => intro k; simp [failTrace, oracleCount]
  | succ f ih =>
      intro k
      simp [failTrace, oracleCount, List.countP_cons] at *
      exact ih (k + 1)

lemma writeCount_failTrace (w : StepWorld) (er : Bool) (sc : Option ServerConfig) :
    ∀ fuel k, writeCount (failTrace w er sc k fuel) = fuel := by
  intro fuel
  induction fuel with
  | zero => intro k; simp [failTrace, writeCount]
  | succ f ih =>
      intro k
      simp [failTrace, writeCount, List.countP_cons] at *
      exact ih (k + 1)

lemma failTrace_ne_nil (w : StepWorld) (er : Bool) (sc : Option ServerConfig)
    (k fuel : Nat) (h : 1 ≤ fuel) : failTrace w er sc k fuel ≠ [] := by
  cases fuel with
  | zero => omega
  | succ f => simp [failTrace]

lemma getLast?_failTrace (w : StepWorld) (er : Bool) (sc : Option ServerConfig) :
    ∀ fuel k, 1 ≤ fuel →
      (failTrace w er sc k fuel).getLast? =
        some (.write ((w.fixResult (k + fuel - 1)).getD "")) := by
  intro fuel
  induction fuel with
  | zero => intro k h; omega
  | succ f ih =>
      intro k _
      cases f with
      | zero => simp [failTrace, List.getLast?]
      | succ f' =>
          rw [failTrace_append, List.getLast?_append_of_ne_nil _
            (failTrace_ne_nil w er sc (k + 1) (f' + 1) (by omega))]
          rw [ih (k + 1) (by omega)]
          have hidx : k + 1 + (f' + 1) - 1 = k + (f' + 1 + 1) - 1 := by omega
          rw [hidx]

/-- If every attempt from the world fails, every read succeeds and
every oracle answer is usable, the loop spends its whole fuel and
returns `False` with the corresponding trace. -/
lemma stepLoopGo_allFail (w : StepWorld) (er : Bool) (sc : Option ServerConfig)
    (hfail : ∀ j, (run_step er sc (w.remoteEnv j) (w.localEnv j)).1 = false)
    (hread : ∀ j, w.readResult j ≠ "")
    (hfix : ∀ j, usableCorrection (w.fixResult j) = true) :
    ∀ fuel k, stepLoopGo w er sc k fuel = (false, failTrace w er sc k fuel) := by
  intro fuel
  induction fuel with
  | zero => intro k; simp [stepLoopGo, failTrace]
  | succ f ih =>
      intro k
      rw [stepLoopGo]
      rcases hc : w.fixResult k with _ | c
      · exact absurd (hfix k) (by simp [usableCorrection, hc])
      · have hcne : ¬ c = "" := by
          have := hfix k
          simp [usableCorrection, hc] at this
          exact this
        simp only [hfail k, if_false, Bool.false_eq_true, hc,
          beq_iff_eq, hread k, if_neg, hcne, ih (k + 1)]
        simp [failTrace, hc]

/-- If attempts `k, …, k+m-1` fail with readable artifacts and usable
corrections and attempt `k+m` succeeds, the loop stops right after the
successful execution. -/
lemma stepLoopGo_firstSuccess (w : StepWorld) (er : Bool) (sc : Option ServerConfig) :
    ∀ m fuel k, m < fuel →
      (∀ j, j < m →
        (run_step er sc (w.remoteEnv (k + j)) (w.localEnv (k + j))).1 = false ∧
        w.readResult (k + j) ≠ "" ∧
        usableCorrection (w.fixResult (k + j)) = true) →
      (run_step er sc (w.remoteEnv (k + m)) (w.localEnv (k + m))).1 = true →
      stepLoopGo w er sc k fuel =
        (true, failTrace w er sc k m ++ [.exec (k + m) (er && sc.isSome) true]) := by
  intro m
  induction m with
  | zero =>
      intro fuel k hm _ hsucc
      cases fuel with
      | zero => omega
      | succ f =>
          rw [stepLoopGo]
          simp only [Nat.add_zero] at hsucc
          simp [hsucc, failTrace]
  | succ m ih =>
      intro fuel k hm hpre hsucc
      cases fuel with
      | zero => omega
      | succ f =>
          obtain ⟨hf0, hr0, hu0⟩ := hpre 0 (by omega)
          simp only [Nat.add_zero] at hf0 hr0 hu0
          rw [stepLoopGo]
          rcases hc : w.fixResult k with _ | c
          · exact absurd hu0 (by simp [usableCorrection, hc])
          · have hcne : ¬ c = "" := by
              simp [usableCorrection, hc] at hu0
              exact hu0
            have hrec := ih f (k + 1) (by omega)
              (fun j hj => by
                have := hpre (j + 1) (by omega)
                simpa [Nat.add_comm, Nat.add_assoc, Nat.add_left_comm] using this)
              (by
                have : k + 1 + m = k + (m + 1) := by omega
                rw [this]
                exact hsucc)
            simp only [hf0, if_false, Bool.false_eq_true, beq_iff_eq, hr0,
              if_neg, hc, hcne, hrec]
            have : k + 1 + m = k + (m + 1) := by omega
            simp [failTrace, hc, this]

/-- If attempts `k, …, k+m-1` fail with usable corrections and attempt
`k+m` fails but the oracle's answer for it is falsy (`None` or empty),
the loop abandons right after that oracle call. -/
lemma stepLoopGo_abandonAt (w : StepWorld) (er : Bool) (sc : Option ServerConfig) :
    ∀ m fuel k, m < fuel →
      (∀ j, j < m →
        (run_step er sc (w.remoteEnv (k + j)) (w.localEnv (k + j))).1 = false ∧
        w.readResult (k + j) ≠ "" ∧
        usableCorrection (w.fixResult (k + j)) = true) →
      (run_step er sc (w.remoteEnv (k + m)) (w.localEnv (k + m))).1 = false →
      w.readResult (k + m) ≠ "" →
      usableCorrection (w.fixResult (k + m)) = false →
      stepLoopGo w er sc k fuel =
        (false, failTrace w er sc k m ++
          [.exec (k + m) (er && sc.isSome) false, .readArtifact (k + m),
           .oracle (k + m) (w.fixResult (k + m))]) := by
  intro m
  induction m with
  | zero =>
      intro fuel k hm _ hfailm hreadm hfixm
      cases fuel with
      | zero => omega
      | succ f =>
          rw [stepLoopGo]
          simp only [Nat.add_zero] at hfailm hreadm hfixm
          rcases hc : w.fixResult k with _ | c
          · simp [hfailm, hreadm, hc, failTrace]
          · have hce : c = "" := by
              simp [usableCorrection, hc] at hfixm
              exact hfixm
            simp [hfailm, hreadm, hc, hce, failTrace]
  | succ m ih =>
      intro fuel k hm hpre hfailm hreadm hfixm
      cases fuel with
      | zero => omega
      | succ f =>
          obtain ⟨hf0, hr0, hu0⟩ := hpre 0 (by omega)
          simp only [Nat.add_zero] at hf0 hr0 hu0
          rw [stepLoopGo]
          rcases hc : w.fixResult k with _ | c
          · exact absurd hu0 (by simp [usableCorrection, hc])
          · have hcne : ¬ c = "" := by
              simp [usableCorrection, hc] at hu0
              exact hu0
            have hshift : k + 1 + m = k + (m + 1) := by omega
            have hrec := ih f (k + 1) (by omega)
              (fun j hj => by
                have := hpre (j + 1) (by omega)
                simpa [Nat.add_comm, Nat.add_assoc, Nat.add_left_comm] using this)
              (by rw [hshift]; exact hfailm)
              (by rw [hshift]; exact hreadm)
              (by rw [hshift]; exact hfixm)
            simp only [hf0, if_false, Bool.false_eq_true, beq_iff_eq, hr0,
              if_neg, hc, hcne, hrec]
            simp [failTrace, hc, hshift]

/-- If attempts `k, …, k+m-1` fail with usable corrections and attempt
`k+m` fails with the artifact unreadable on read-back, the loop
abandons right after the read, without consulting the oracle. -/
lemma stepLoopGo_readFailAt (w : StepWorld) (er : Bool) (sc : Option ServerConfig) :
    ∀ m fuel k, m < fuel →
      (∀ j, j < m →
        (run_step er sc (w.remoteEnv (k + j)) (w.localEnv (k + j))).1 = false ∧
        w.readResult (k + j) ≠ "" ∧
        usableCorrection (w.fixResult (k + j)) = true) →
      (run_step er sc (w.remoteEnv (k + m)) (w.localEnv (k + m))).1 = false →
      w.readResult (k + m) = "" →
      stepLoopGo w er sc k fuel =
        (false, failTrace w er sc k m ++
          [.exec (k + m) (er && sc.isSome) false, .readArtifact (k + m)]) := by
  intro m
  induction m with
  | zero =>
      intro fuel k hm _ hfailm hreadm
      cases fuel with
      | zero => omega
      | succ f =>
          rw [stepLoopGo]
          simp only [Nat.add_zero] at hfailm hreadm
          simp [hfailm, hreadm, failTrace]
  | succ m ih =>
      intro fuel k hm hpre hfailm hreadm
      cases fuel with
      | zero => omega
      | succ f =>
          obtain ⟨hf0, hr0, hu0⟩ := hpre 0 (by omega)
          simp only [Nat.add_zero] at hf0 hr0 hu0
          rw [stepLoopGo]
          rcases hc : w.fixResult k with _ | c
          · exact absurd hu0 (by simp [usableCorrection, hc])
          · have hcne : ¬ c = "" := by
              simp [usableCorrection, hc] at hu0
              exact hu0
            have hshift : k + 1 + m = k + (m + 1) := by omega
            have hrec := ih f (k + 1) (by omega)
              (fun j hj => by
                have := hpre (j + 1) (by omega)
                simpa [Nat.add_comm, Nat.add_assoc, Nat.add_left_comm] using this)
              (by rw [hshift]; exact hfailm)
              (by rw [hshift]; exact hreadm)
            simp only [hf0, if_false, Bool.false_eq_true, beq_iff_eq, hr0,
              if_neg, hc, hcne, hrec]
            simp [failTrace, hc, hshift]

/-- Every execution event in the loop's trace carries the backend
decided by the `(er, sc)` arguments the loop was entered with: the
selection is fixed for all retries. -/
lemma stepLoopGo_backend_fixed (w : StepWorld) (er : Bool) (sc : Option ServerConfig) :
    ∀ fuel k a r ok, StepEvent.exec a r ok ∈ (stepLoopGo w er sc k fuel).2 →
      r = (er && sc.isSome) := by
  intro fuel
  induction fuel with
  | zero => intro k a r ok h; simp [stepLoopGo] at h
  | succ f ih =>
      intro k a r ok h
      rw [stepLoopGo] at h
      by_cases h1 : (run_step er sc (w.remoteEnv k) (w.localEnv k)).1
      · simp [h1] at h
        exact h.2.1
      · simp only [h1, if_false, Bool.false_eq_true] at h
        by_cases h2 : w.readResult k == ""
        · simp [h2] at h
          exact h.2.1
        · simp only [h2, if_false, Bool.false_eq_true] at h
          rcases hc : w.fixResult k with _ | c
          · simp [hc] at h
            exact h.2.1
          · simp only [hc] at h
            by_cases h3 : c == ""
            · simp [h3] at h
              exact h.2.1
            · simp only [h3, if_false, Bool.false_eq_true, List.mem_cons] at h
              rcases h with h | h | h | h | h
              · cases h; rfl
              · simp at h
              · simp at h
              · simp at h
              · exact ih (k + 1) a r ok h

/-- With at least one unit of fuel the loop performs at least one
interaction: its trace is nonempty. -/
lemma stepLoopGo_ne_nil (w : StepWorld) (er : Bool) (sc : Option ServerConfig)
    (fuel k : Nat) (h : 1 ≤ fuel) : (stepLoopGo w er sc k fuel).2 ≠ [] := by
  cases fuel with
  | zero => omega
  | succ f =>
      rw [stepLoopGo]
      by_cases h1 : (run_step er sc (w.remoteEnv k) (w.localEnv k)).1
      · simp [h1]
      · simp only [h1, if_false, Bool.false_eq_true]
        by_cases h2 : w.readResult k == ""
        · simp [h2]
        · simp only [h2, if_false, Bool.false_eq_true]
          rcases hc : w.fixResult k with _ | c
          · simp
          · by_cases h3 : c == "" <;> simp [h3]

/-! ### The per-step orchestration: `MainPipeline.process_steps`

For each step (`step_counter` running from 1 across all plan sections
in order), `process_steps` generates code, normalizes it, saves it,
extracts the class name, selects the backend by scanning
`remote_servers`, and calls `execute_and_fix_step`; `step_counter` is
incremented on every outcome.  The environment of one step (what
generation returned, whether the save succeeded, and the world of its
repair loop) is a `StepEnv`; `envs n` gives the environment of ordinal
`n`. -/

/-- Outcome of the generate → normalize → persist → extract prefix of
one step of `process_steps`, before the execute-and-repair loop. -/
inductive StepPhase where
  | genFailed
  | saveFailed
  | extractFailed
  | entered (className : String)
deriving DecidableEq, Repr

/-- The generate/normalize/persist/extract prefix of one iteration of
`process_steps` (`main_pipeline.py`): `generate_step_code` returning
`None` or empty text (`if not step_code`) fails the step;
`add_main_block` normalizes; `save_step_code` failing
(`if not step_path`) fails the step; `extract_class_name` on the
normalized code returning `None` fails the step; otherwise the
execute-and-repair loop is entered.  Generation's result is `none` for
a falsy text and `some code` for nonempty text with parse outcome
`code`. -/
def processOneStep (gen : Option PyCode) (saveOk : Bool) (n : Nat) : StepPhase :=
  match gen with
  | none => .genFailed
  | some code =>
      let normalized := add_main_block code n
      if !saveOk then .saveFailed
      else
        match extract_class_name normalized with
        | none => .extractFailed
        | some cn => .entered cn

/-- The backend-selection scan of `process_steps`: walk
`remote_servers` in configuration order and stop at the first server
whose `steps_to_execute` contains `step_counter`, taking that server's
`execute_remotely` flag; otherwise `(False, None)`.  (The
`isinstance(steps_to_execute, list)` guard is always satisfied here
because `PipelineConfig.validate_config` enforces it.) -/
def selectBackend (n : Nat) (servers : List ServerConfig) : Bool × Option ServerConfig :=
  match servers.find? (fun s => s.steps_to_execute.contains n) with
  | some s => (s.execute_remotely, some s)
  | none => (false, none)

/-- The environment one step's processing runs against. -/
structure StepEnv where
  gen : Option PyCode
  saveOk : Bool
  world : StepWorld

/-- One full iteration of the `process_steps` loop for ordinal `n`:
the boolean is whether the step reached success (and so its path is
appended to `executed_steps`); the trace is the interaction trace of
its execute-and-repair loop (empty when the loop was never entered). -/
def runOneStep (n : Nat) (env : StepEnv) (servers : List ServerConfig)
    (max_retries : Nat) : Bool × List StepEvent :=
  match processOneStep env.gen env.saveOk n with
  | .entered _ =>
      let sel := selectBackend n servers
      execute_and_fix_step env.world max_retries sel.1 sel.2
  | _ => (false, [])

/-- The loop of `process_steps` over the remaining step descriptions,
with `n` the current `step_counter`.  Returns the list of visited
ordinals (in visit order) and the list of ordinals whose step was
appended to `executed_steps`.  The description text itself only feeds
the oracle prompt, which is below this abstraction. -/
def processFrom (envs : Nat → StepEnv) (servers : List ServerConfig)
    (max_retries : Nat) : List String → Nat → List Nat × List Nat
  | [], _ => ([], [])
  | _d :: rest, n =>
      let ok := (runOneStep n (envs n) servers max_retries).1
      let r := processFrom envs servers max_retries rest (n + 1)
      (n :: r.1, if ok then n :: r.2 else r.2)

/-- The dense 1-based step sequence `process_steps` iterates over: all
step descriptions of all plan sections, flattened in plan order
(Python dicts preserve insertion order). -/
def stepsOf (plan : List (String × List String)) : List String :=
  (plan.map Prod.snd).flatten

/-- `MainPipeline.process_steps` (`main_pipeline.py`), with
`step_counter` starting at 1. -/
def process_steps (plan : List (String × List String)) (envs : Nat → StepEnv)
    (servers : List ServerConfig) (max_retries : Nat) : List Nat × List Nat :=
  processFrom envs servers max_retries (stepsOf plan) 1

/-- The continuation `MainPipeline.run` (`main_pipeline.py`) takes
once `process_steps` has returned: `if not executed_steps:
sys.exit(1)`, otherwise `assemble_and_execute_solution` is called,
whose first action is `assemble_solution` over the executed steps. -/
inductive RunContinuation where
  | exitNoSteps
  | assembleSteps (executed : List Nat)
deriving DecidableEq, Repr

/-- The step-processing-to-assembly glue of `MainPipeline.run`:
process all steps, abort with a non-zero exit when nothing succeeded,
and otherwise attempt assembly over the successful steps. -/
def runPipeline (plan : List (String × List String)) (envs : Nat → StepEnv)
    (servers : List ServerConfig) (max_retries : Nat) : RunContinuation :=
  let executed := (process_steps plan envs servers max_retries).2
  if executed.isEmpty then .exitNoSteps else .assembleSteps executed

/-- Whether the generate/extract prefix is a hard failure in the code:
the oracle text is falsy, or it does not parse, or it contains no
top-level class definition (of any name). -/
def genHardFail (gen : Option PyCode) : Bool :=
  match gen with
  | none => true
  | some code => !hasTopLevelClass code

lemma processFrom_visited (envs : Nat → StepEnv) (servers : List ServerConfig)
    (max_retries : Nat) :
    ∀ (l : List String) (n : Nat),
      (processFrom envs servers max_retries l n).1 = List.range' n l.length := by
  intro l
  induction l with
  | nil => intro n; simp [processFrom]
  | cons d rest ih =>
      intro n
      simp [processFrom, List.range'_succ, ih (n + 1)]

/-! ### Assembly: `SolutionAssembler.assemble_solution`

For each executed step path, the code takes the file's basename,
searches it for the pattern `step_(\d+)\.py` (skipping the artifact on
no match), reads the file back (skipping it when the read fails or the
file is empty), extracts the class name (skipping the artifact when
none is derivable), and accumulates one import line and one
construct-and-call pair; assembly fails only when the
accumulated import and execution strings are both still empty, or when `main.py`
cannot be written.  An artifact is modelled by what those inspections
observe. -/

/-- One input artifact to `assemble_solution`: the digits captured by
the filename pattern (or `none` if the basename does not match
`step_(\d+)\.py`), the module name (basename without extension), and
the file's parsed content (`none` when the read fails or yields empty
text). -/
structure ArtifactInput where
  stepNum : Option String
  moduleName : String
  content : Option PyCode

/-- The import line accumulated for one artifact:
`from steps.<module> import <class>`. -/
def importLine (moduleName className : String) : String :=
  "from steps." ++ moduleName ++ " import " ++ className ++ "\n"

/-- The execution pair accumulated for one artifact:
`step<num> = <class>()` then `step<num>.execute()`. -/
def execLines (num className : String) : String :=
  "    step" ++ num ++ " = " ++ className ++ "()\n" ++
    "    step" ++ num ++ ".execute()\n\n"

/-- What one loop iteration of `assemble_solution` contributes:
`none` when any of the three `continue` guards fires (filename pattern
unmatched, unreadable/empty content, or no derivable class name),
otherwise the pair of an import line and an execution pair. -/
def extractEntry (a : ArtifactInput) : Option (String × String) :=
  match a.stepNum, a.content with
  | some num, some code =>
      match extract_class_name code with
      | some cn => some (importLine a.moduleName cn, execLines num cn)
      | none => none
  | _, _ => none

/-- The `main.py` template of `assemble_solution` (the f-string
surrounding `main_imports` and `main_executions`). -/
def mainTemplate (imports executions : String) : String :=
  "                        " ++ imports ++
    "\n\n                        def main():\n                        " ++
    executions ++
    "\n\n                        if __name__ == \"__main__\":\n" ++
    "                            main()\n                        "

/-- `SolutionAssembler.assemble_solution` (`solution_assembler.py`):
accumulate entries over the executed steps in order, return `None`
when `not main_imports and not main_executions`, otherwise write
`main.py` (whose success is `writeOk`) and return it; an `IOError` on
the write also returns `None`.  The returned value here is the
composite source text in place of the written path. -/
def assemble_solution (arts : List ArtifactInput) (writeOk : Bool) : Option String :=
  let entries := arts.filterMap extractEntry
  let main_imports := entries.foldl (fun acc e => acc ++ e.1) ""
  let main_executions := entries.foldl (fun acc e => acc ++ e.2) ""
  if main_imports == "" && main_executions == "" then none
  else if writeOk then some (mainTemplate main_imports main_executions)
  else none

lemma foldl_append_fst_length (l : List (String × String)) (acc : String) :
    (l.foldl (fun a e => a ++ e.1) acc).length =
      acc.length + (l.map fun e => e.1.length).sum := by
  induction l generalizing acc with
  | nil => simp
  | cons e rest ih =>
      simp only [List.foldl_cons, List.map_cons, List.sum_cons, ih,
        String.length_append]
      omega

lemma extractEntry_fst_length_pos (a : ArtifactInput) (e : String × String)
    (h : extractEntry a = some e) : 0 < e.1.length := by
  unfold extractEntry at h
  rcases a with ⟨num, m, content⟩
  rcases num with _ | num
  · simp at h
  · rcases content with _ | code
    · simp at h
    · rcases hcn : extract_class_name code with _ | cn
      · simp [hcn] at h
      · simp only [hcn] at h
        cases h
        simp [importLine, String.length_append]
        have : ("from steps." : String).length = 11 := rfl
        omega

lemma assemble_imports_ne_empty (arts : List ArtifactInput) (e : String × String)
    (rest : List (String × String))
    (h : arts.filterMap extractEntry = e :: rest) :
    ¬((e :: rest).foldl (fun a x => a ++ x.1) "" = "") := by
  intro hcontra
  have hlen := foldl_append_fst_length (e :: rest) ""
  rw [hcontra] at hlen
  have he : e ∈ arts.filterMap extractEntry := by
    rw [h]; exact List.mem_cons_self e rest
  obtain ⟨a, _, ha⟩ := List.mem_filterMap.1 he
  have := extractEntry_fst_length_pos a e ha
  simp only [List.map_cons, List.sum_cons] at hlen
  simp at hlen
  omega

/-! ### Concrete environments used by the witnesses and
counterexamples -/

/-- A world in which every execution fails locally with exit code 1,
the artifact is always readable and the oracle always returns a
(nonempty) correction. -/
def wAllFail : StepWorld where
  remoteEnv := fun _ => ⟨true, true, "", "remote error", 0⟩
  localEnv := fun _ => ⟨1, "", "local error", false⟩
  readResult := fun _ => "print(1)"
  fixResult := fun _ => some "print(2)"

/-- A world in which the first execution succeeds locally. -/
def wFirstOk : StepWorld where
  remoteEnv := fun _ => ⟨true, true, "ok", "", 0⟩
  localEnv := fun _ => ⟨0, "ok", "", false⟩
  readResult := fun _ => "print(1)"
  fixResult := fun _ => some "print(2)"

/-- A world in which every execution fails and the artifact is
unreadable when read back for repair. -/
def wUnreadable : StepWorld where
  remoteEnv := fun _ => ⟨true, true, "", "remote error", 0⟩
  localEnv := fun _ => ⟨1, "", "local error", false⟩
  readResult := fun _ => ""
  fixResult := fun _ => none

/-- A world in which every execution fails and the oracle never
produces a correction. -/
def wNoFix : StepWorld where
  remoteEnv := fun _ => ⟨true, true, "", "remote error", 0⟩
  localEnv := fun _ => ⟨1, "", "local error", false⟩
  readResult := fun _ => "print(1)"
  fixResult := fun _ => none

/-- A world whose every remote run exits with status 0 yet writes to
stderr, while connection and transfer succeed. -/
def wRemoteErr : StepWorld where
  remoteEnv := fun _ => ⟨true, true, "out", "warning", 0⟩
  localEnv := fun _ => ⟨0, "", "", false⟩
  readResult := fun _ => "print(1)"
  fixResult := fun _ => some "print(2)"

/-- A generated module holding a single class `Foo` with no `execute`
method — discoverable by `extract_class_name`, but conforming to none
of the spec's naming or `execute` requirements. -/
def fooCode : PyCode :=
  .module [.classDef "Foo" [.simple "pass"]]

/-- A well-formed generated module for step 1. -/
def step1Code : PyCode :=
  .module [.classDef "Step1" [.functionDef "execute" [.simple "pass"]]]

/-! ## The claims -/

/-- C1.  For every step and every configured `max_retries ≥ 1`: if
every execution attempt fails, the artifact stays readable and the
repair oracle always returns a non-empty correction, then
`execute_and_fix_step` executes the artifact exactly `max_retries`
times and returns failure; and if every attempt before attempt `m`
(0-based) fails that way and attempt `m < max_retries` succeeds, it
returns success with exactly `m + 1` executions and `m` oracle calls —
no further executions or oracle calls. -/
theorem claim_C1_retry_budget (w : StepWorld) (mr : Nat) (er : Bool)
    (sc : Option ServerConfig) (hmr : 1 ≤ mr) :
    ((∀ j, (run_step er sc (w.remoteEnv j) (w.localEnv j)).1 = false) →
     (∀ j, w.readResult j ≠ "") →
     (∀ j, usableCorrection (w.fixResult j) = true) →
      (execute_and_fix_step w mr er sc).1 = false ∧
      execCount (execute_and_fix_step w mr er sc).2 = mr) ∧
    (∀ m, m < mr →
      (∀ j, j < m →
        (run_step er sc (w.remoteEnv j) (w.localEnv j)).1 = false ∧
        w.readResult j ≠ "" ∧ usableCorrection (w.fixResult j) = true) →
      (run_step er sc (w.remoteEnv m) (w.localEnv m)).1 = true →
      (execute_and_fix_step w mr er sc).1 = true ∧
      execCount (execute_and_fix_step w mr er sc).2 = m + 1 ∧
      oracleCount (execute_and_fix_step w mr er sc).2 = m) := by
  constructor
  · intro hfail hread hfix
    unfold execute_and_fix_step
    rw [stepLoopGo_allFail w er sc hfail hread hfix mr 0]
    exact ⟨rfl, execCount_failTrace w er sc mr 0⟩
  · intro m hm hpre hsucc
    unfold execute_and_fix_step
    rw [stepLoopGo_firstSuccess w er sc m mr 0 hm
      (fun j hj => by simpa using hpre j hj) (by simpa using hsucc)]
    refine ⟨rfl, ?_, ?_⟩
    · rw [execCount_append, execCount_failTrace]
      simp [execCount, List.countP_cons]
    · rw [oracleCount_append, oracleCount_failTrace]
      simp [oracleCount, List.countP_cons]

/-- Witness for C1 at a concrete world: with `max_retries = 3` and
every local run exiting 1, the step fails after exactly 3
executions. -/
theorem claim_C1_retry_budget_witness :
    (execute_and_fix_step wAllFail 3 false none).1 = false ∧
    execCount (execute_and_fix_step wAllFail 3 false none).2 = 3 :=
  (claim_C1_retry_budget wAllFail 3 false none (by omega)).1
    (fun j => rfl) (fun j => by simp [wAllFail]) (fun j => rfl)

/-- C3.  If the attempts before attempt `m` fail with usable
corrections, attempt `m < max_retries` fails, the artifact reads back,
and the repair oracle yields no usable correction (`None` or empty
text), the step is abandoned immediately: exactly `m + 1` executions
and `m + 1` oracle calls happen, and the result is failure, with the
remaining retry budget unspent. -/
theorem claim_C3_repair_abandons_immediately (w : StepWorld) (mr : Nat)
    (er : Bool) (sc : Option ServerConfig) (m : Nat) (hm : m < mr)
    (hpre : ∀ j, j < m →
      (run_step er sc (w.remoteEnv j) (w.localEnv j)).1 = false ∧
      w.readResult j ≠ "" ∧ usableCorrection (w.fixResult j) = true)
    (hfail : (run_step er sc (w.remoteEnv m) (w.localEnv m)).1 = false)
    (hread : w.readResult m ≠ "")
    (hfix : usableCorrection (w.fixResult m) = false) :
    (execute_and_fix_step w mr er sc).1 = false ∧
    execCount (execute_and_fix_step w mr er sc).2 = m + 1 ∧
    oracleCount (execute_and_fix_step w mr er sc).2 = m + 1 := by
  unfold execute_and_fix_step
  rw [stepLoopGo_abandonAt w er sc m mr 0 hm
    (fun j hj => by simpa using hpre j hj) (by simpa using hfail)
    (by simpa using hread) (by simpa using hfix)]
  refine ⟨rfl, ?_, ?_⟩
  · rw [execCount_append, execCount_failTrace]
    simp [execCount, List.countP_cons]
  · rw [oracleCount_append, oracleCount_failTrace]
    simp [oracleCount, List.countP_cons]

/-- Witness for C3: with `max_retries = 5`, a first failing execution
whose repair call yields nothing abandons after exactly 1 execution
and 1 oracle call. -/
theorem claim_C3_repair_abandons_immediately_witness :
    (execute_and_fix_step wNoFix 5 false none).1 = false ∧
    execCount (execute_and_fix_step wNoFix 5 false none).2 = 0 + 1 ∧
    oracleCount (execute_and_fix_step wNoFix 5 false none).2 = 0 + 1 :=
  claim_C3_repair_abandons_immediately wNoFix 5 false none 0 (by omega)
    (fun j hj => absurd hj (by omega)) rfl (by simp [wNoFix]) rfl

/-- C10.  A step that exhausts its budget consults the oracle once
after every failed execution, the final one included: exactly
`max_retries` oracle calls and `max_retries` persisted corrections
against `max_retries` executions, and the last trace event is the
write of the last correction — persisted via `update_step_code` but
never executed. -/
theorem claim_C10_last_correction_never_executed (w : StepWorld) (mr : Nat)
    (er : Bool) (sc : Option ServerConfig) (c : String) (hmr : 1 ≤ mr)
    (hfail : ∀ j, (run_step er sc (w.remoteEnv j) (w.localEnv j)).1 = false)
    (hread : ∀ j, w.readResult j ≠ "")
    (hfix : ∀ j, usableCorrection (w.fixResult j) = true)
    (hc : w.fixResult (mr - 1) = some c) :
    (execute_and_fix_step w mr er sc).1 = false ∧
    execCount (execute_and_fix_step w mr er sc).2 = mr ∧
    oracleCount (execute_and_fix_step w mr er sc).2 = mr ∧
    writeCount (execute_and_fix_step w mr er sc).2 = mr ∧
    (execute_and_fix_step w mr er sc).2.getLast? = some (.write c) := by
  unfold execute_and_fix_step
  rw [stepLoopGo_allFail w er sc hfail hread hfix mr 0]
  refine ⟨rfl, execCount_failTrace w er sc mr 0,
    oracleCount_failTrace w er sc mr 0, writeCount_failTrace w er sc mr 0, ?_⟩
  rw [getLast?_failTrace w er sc mr 0 hmr]
  simp [hc]

/-- Witness for C10: with `max_retries = 3` in the all-fail world the
final artifact state is the third correction, never executed. -/
theorem claim_C10_last_correction_never_executed_witness :
    (execute_and_fix_step wAllFail 3 false none).1 = false ∧
    execCount (execute_and_fix_step wAllFail 3 false none).2 = 3 ∧
    oracleCount (execute_and_fix_step wAllFail 3 false none).2 = 3 ∧
    writeCount (execute_and_fix_step wAllFail 3 false none).2 = 3 ∧
    (execute_and_fix_step wAllFail 3 false none).2.getLast? =
      some (.write "print(2)") :=
  claim_C10_last_correction_never_executed wAllFail 3 false none "print(2)"
    (by omega) (fun j => rfl) (fun j => by simp [wAllFail]) (fun j => rfl) rfl

/-- C8.  `add_main_block` is idempotent: running it a second time with
the same ordinal changes nothing, and text that already contains a
runnable-as-script guard is left unchanged. -/
theorem claim_C8_add_main_block_idempotent (c : PyCode) (n : Nat) :
    add_main_block (add_main_block c n) n = add_main_block c n ∧
    (hasGuard c = true → add_main_block c n = c) := by
  cases c with
  | unparsable raw => exact ⟨rfl, fun _ => rfl⟩
  | module body =>
      constructor
      · by_cases h : hasMainBlock body
        · simp [add_main_block, h]
        · simp only [add_main_block, h, if_false, Bool.false_eq_true]
          simp [hasMainBlock_append_mainGuard body n]
      · intro hg
        simp only [hasGuard] at hg
        simp [add_main_block, hg]

/-- Witness for C8: a module consisting of exactly a `__main__` guard
is already normalized and is left unchanged. -/
theorem claim_C8_add_main_block_idempotent_witness :
    hasGuard (.module [mainGuard 1]) = true ∧
    add_main_block (.module [mainGuard 1]) 7 = .module [mainGuard 1] :=
  ⟨rfl, (claim_C8_add_main_block_idempotent (.module [mainGuard 1]) 7).2 rfl⟩

/-- Counterexample to C2 as stated.  The generated text
`class Foo: pass` contains no top-level entry type named `Step1` and
no `execute` unit at all, so by the claim generation should be a hard
failure and the execute-and-repair loop should never be entered; but
`extract_class_name` accepts the first top-level class of any name, the
step reaches the `entered` phase, and the loop runs (its interaction
trace is nonempty). -/
theorem claim_C2_counterexample :
    topLevelClassNames fooCode = ["Foo"] ∧
    processOneStep (some fooCode) true 1 = .entered "Foo" ∧
    (runOneStep 1 ⟨some fooCode, true, wAllFail⟩ [] 3).2 ≠ [] := by
  refine ⟨rfl, rfl, ?_⟩
  decide

/-- C2 as amended.  Generation is a hard failure for a step — the step
is surfaced as failed immediately with the execute-and-repair loop
never entered and no retry budget consumed — precisely when the
oracle's text is empty (or absent), does not parse, or contains no
top-level class definition of any name; neither the name
`Step<ordinal>` nor the presence of an `execute` unit is checked. -/
theorem claim_C2_amended_generation_hard_failure (gen : Option PyCode)
    (w : StepWorld) (n mr : Nat) (servers : List ServerConfig) (hmr : 1 ≤ mr) :
    genHardFail gen = true ↔
      runOneStep n ⟨gen, true, w⟩ servers mr = (false, []) := by
  cases gen with
  | none =>
      simp [genHardFail, runOneStep, processOneStep]
  | some code =>
      simp only [genHardFail, Bool.not_eq_true']
      constructor
      · intro h
        have hext : extract_class_name code = none :=
          (extract_class_name_eq_none_iff code).2 h
        simp [runOneStep, processOneStep,
          extract_class_name_add_main_block, hext]
      · intro h
        by_contra hcl
        have hcl' : hasTopLevelClass code = true := by
          cases hc : hasTopLevelClass code
          · exact absurd hc hcl
          · rfl
        rcases hext : extract_class_name code with _ | cn
        · rw [(extract_class_name_eq_none_iff code).1 hext] at hcl'
          cases hcl'
        · have : runOneStep n ⟨some code, true, w⟩ servers mr =
              execute_and_fix_step w mr (selectBackend n servers).1
                (selectBackend n servers).2 := by
            simp [runOneStep, processOneStep,
              extract_class_name_add_main_block, hext]
          rw [this] at h
          have hne := stepLoopGo_ne_nil w (selectBackend n servers).1
            (selectBackend n servers).2 mr 0 hmr
          unfold execute_and_fix_step at h
          rw [h] at hne
          exact hne rfl

/-- Witness for the amended C2: empty oracle output is a hard failure,
with the loop never entered. -/
theorem claim_C2_amended_generation_hard_failure_witness :
    runOneStep 4 ⟨none, true, wAllFail⟩ [] 3 = (false, []) :=
  (claim_C2_amended_generation_hard_failure none wAllFail 4 3 [] (by omega)).1 rfl

/-- A configured remote target with an empty step list. -/
def srvA : ServerConfig :=
  ⟨"a.example.com", 22, "user", none, "/app/.ssh/id_rsa", true, []⟩

/-- A configured remote target listing steps 2 and 3. -/
def srvB : ServerConfig :=
  ⟨"b.example.com", 22, "user", none, "/app/.ssh/id_rsa", true, [2, 3]⟩

/-- A later configured remote target also listing step 2. -/
def srvC : ServerConfig :=
  ⟨"c.example.com", 2222, "user", some "pw", "/app/.ssh/id_rsa", false, [2]⟩

/-- C4.  Backend selection: the first remote target in configuration
order whose `steps_to_execute` contains the ordinal determines the
dispatch (carrying that target's `execute_remotely` flag); when no
target lists the ordinal the step runs locally on every retry; a
target with an empty `steps_to_execute` is never selected even with
`execute_remotely = true`; and the selection, computed once before the
retry loop, is the backend of every execution in the loop's trace. -/
theorem claim_C4_backend_selection (n : Nat) (servers pre post : List ServerConfig)
    (s : ServerConfig) :
    (servers = pre ++ s :: post →
      (∀ t ∈ pre, t.steps_to_execute.contains n = false) →
      s.steps_to_execute.contains n = true →
      selectBackend n servers = (s.execute_remotely, some s)) ∧
    ((∀ t ∈ servers, t.steps_to_execute.contains n = false) →
      selectBackend n servers = (false, none) ∧
      ∀ (w : StepWorld) (mr a : Nat) (r ok : Bool),
        StepEvent.exec a r ok ∈ (execute_and_fix_step w mr false none).2 →
        r = false) ∧
    (s ∈ servers → s.steps_to_execute = [] →
      (selectBackend n servers).2 ≠ some s) ∧
    (∀ (w : StepWorld) (mr a : Nat) (r ok : Bool),
      StepEvent.exec a r ok ∈
        (execute_and_fix_step w mr (selectBackend n servers).1
          (selectBackend n servers).2).2 →
      r = ((selectBackend n servers).1 && (selectBackend n servers).2.isSome)) := by
  refine ⟨?_, ?_, ?_, ?_⟩
  · intro hs hpre hmem
    subst hs
    have h1 : (pre.find? fun t => t.steps_to_execute.contains n) = none :=
      List.find?_eq_none.2 (by simpa using hpre)
    have h2 : ((s :: post).find? fun t => t.steps_to_execute.contains n) = some s := by
      refine List.find?_cons_of_pos post ?_
      exact hmem
    unfold selectBackend
    rw [List.find?_append, h1, Option.none_or, h2]
  · intro hall
    have h1 : selectBackend n servers = (false, none) := by
      unfold selectBackend
      rw [List.find?_eq_none.2 (by simpa using hall)]
    refine ⟨h1, fun w mr a r ok hmem => ?_⟩
    have := stepLoopGo_backend_fixed w false none mr 0 a r ok hmem
    simpa using this
  · intro hs hempty hcontra
    unfold selectBackend at hcontra
    rcases hfind : servers.find? fun t => t.steps_to_execute.contains n with _ | t
    · rw [hfind] at hcontra
      simp at hcontra
    · rw [hfind] at hcontra
      simp only [Prod.snd, Option.some.injEq] at hcontra
      have := List.find?_some hfind
      rw [hcontra, hempty] at this
      simp [List.contains] at this
  · intro w mr a r ok hmem
    exact stepLoopGo_backend_fixed w _ _ mr 0 a r ok hmem

/-- Witness for C4: with targets `[srvA, srvB, srvC]` where `srvA`
lists nothing, `srvB` lists `[2, 3]`, and `srvC` also lists `[2]`,
step 2 is dispatched to `srvB` — the first match — with its
`execute_remotely = true` flag. -/
theorem claim_C4_backend_selection_witness :
    selectBackend 2 [srvA, srvB, srvC] = (true, some srvB) :=
  (claim_C4_backend_selection 2 [srvA, srvB, srvC] [srvA] [srvC] srvB).1
    rfl (by decide) rfl

/-- A two-step plan used by the orchestration counterexamples. -/
def plan6 : List (String × List String) :=
  [("Phase One", ["first step", "second step"])]

/-- Step environments in which step 1's artifact becomes unreadable
during its repair cycle and step 2 succeeds at once. -/
def envs6 : Nat → StepEnv := fun k =>
  if k = 1 then ⟨some step1Code, true, wUnreadable⟩
  else ⟨some step1Code, true, wFirstOk⟩

/-- Counterexample to C6 as stated.  With step 1's persisted artifact
unreadable during its repair cycle (its loop aborts right after the
read-back), the run does not abort: step 2 is still processed and ends
up in `executed_steps`. -/
theorem claim_C6_counterexample :
    runOneStep 1 (envs6 1) [] 5 =
      (false, [.exec 0 false false, .readArtifact 0]) ∧
    (process_steps plan6 envs6 [] 5).2 = [2] := by
  exact ⟨rfl, rfl⟩

/-- C6 as amended.  If at any attempt `m` of the repair cycle the
persisted artifact cannot be read back after a failed execution, only
the current step is abandoned: the loop returns failure immediately
after that read-back — the read is its last interaction, with no
repair-oracle call for attempt `m` and no remaining budget spent
(`m + 1` executions and only `m` oracle calls in total) — while the
orchestrator still visits every later ordinal, and `run` still hands
any nonempty list of successful steps to assembly. -/
theorem claim_C6_amended_unreadable_artifact_skips_step (w : StepWorld)
    (mr : Nat) (er : Bool) (sc : Option ServerConfig) (m : Nat) (hm : m < mr)
    (hpre : ∀ j, j < m →
      (run_step er sc (w.remoteEnv j) (w.localEnv j)).1 = false ∧
      w.readResult j ≠ "" ∧ usableCorrection (w.fixResult j) = true)
    (hfailm : (run_step er sc (w.remoteEnv m) (w.localEnv m)).1 = false)
    (hreadm : w.readResult m = "") :
    (execute_and_fix_step w mr er sc).1 = false ∧
    execCount (execute_and_fix_step w mr er sc).2 = m + 1 ∧
    oracleCount (execute_and_fix_step w mr er sc).2 = m ∧
    (execute_and_fix_step w mr er sc).2.getLast? = some (.readArtifact m) ∧
    (∀ (envs : Nat → StepEnv) (servers : List ServerConfig) (l : List String)
      (n : Nat), (processFrom envs servers mr l n).1 = List.range' n l.length) ∧
    (∀ (plan : List (String × List String)) (envs : Nat → StepEnv)
      (servers : List ServerConfig),
      (process_steps plan envs servers mr).2 ≠ [] →
      runPipeline plan envs servers mr =
        .assembleSteps (process_steps plan envs servers mr).2) := by
  have hloop : execute_and_fix_step w mr er sc =
      (false, failTrace w er sc 0 m ++
        [.exec m (er && sc.isSome) false, .readArtifact m]) := by
    unfold execute_and_fix_step
    rw [stepLoopGo_readFailAt w er sc m mr 0 hm
      (fun j hj => by simpa using hpre j hj) (by simpa using hfailm)
      (by simpa using hreadm)]
    simp
  refine ⟨by rw [hloop], ?_, ?_, ?_, ?_, ?_⟩
  · rw [hloop]
    simp only [execCount_append, execCount_failTrace]
    simp [execCount, List.countP_cons]
  · rw [hloop]
    simp only [oracleCount_append, oracleCount_failTrace]
    simp [oracleCount, List.countP_cons]
  · rw [hloop]
    simp only [List.getLast?_append_of_ne_nil _ (by simp :
      ([.exec m (er && sc.isSome) false, .readArtifact m] :
        List StepEvent) ≠ [])]
    simp [List.getLast?]
  · intro envs servers l n
    exact processFrom_visited envs servers mr l n
  · intro plan envs servers hne
    have hc : ¬ ((process_steps plan envs servers mr).2.isEmpty = true) := by
      simpa using hne
    simp only [runPipeline]
    rw [if_neg hc]

/-- Witness for the amended C6 in the concrete two-step scenario:
step 1's loop aborts right after the read-back with no oracle call,
step 2 is still visited, and the run hands the successful steps to
assembly. -/
theorem claim_C6_amended_unreadable_artifact_skips_step_witness :
    (execute_and_fix_step wUnreadable 5 false none).1 = false ∧
    execCount (execute_and_fix_step wUnreadable 5 false none).2 = 0 + 1 ∧
    oracleCount (execute_and_fix_step wUnreadable 5 false none).2 = 0 ∧
    (execute_and_fix_step wUnreadable 5 false none).2.getLast? =
      some (.readArtifact 0) ∧
    (processFrom envs6 [] 5 ["first step", "second step"] 1).1 =
      List.range' 1 2 ∧
    runPipeline plan6 envs6 [] 5 =
      .assembleSteps (process_steps plan6 envs6 [] 5).2 := by
  have h := claim_C6_amended_unreadable_artifact_skips_step wUnreadable 5
    false none 0 (by omega) (fun j hj => absurd hj (by omega)) rfl rfl
  exact ⟨h.1, h.2.1, h.2.2.1, h.2.2.2.1,
    h.2.2.2.2.1 envs6 [] ["first step", "second step"] 1,
    h.2.2.2.2.2 plan6 envs6 [] (by decide)⟩

/-- C7.  For every plan with `N ≥ 1` parsed steps, `process_steps`
visits ordinals `1..N` — in strictly increasing order, each exactly
once, incrementing the counter on every outcome — and the visit list
is nonempty. -/
theorem claim_C7_ordinals_visited_in_order (plan : List (String × List String))
    (envs : Nat → StepEnv) (servers : List ServerConfig) (mr N : Nat)
    (hN : (stepsOf plan).length = N) (h1 : 1 ≤ N) :
    (process_steps plan envs servers mr).1 = List.range' 1 N ∧
    (process_steps plan envs servers mr).1.Pairwise (· < ·) ∧
    (process_steps plan envs servers mr).1 ≠ [] := by
  have hv := processFrom_visited envs servers mr (stepsOf plan) 1
  unfold process_steps
  rw [hv, hN]
  refine ⟨rfl, List.pairwise_lt_range' 1 N 1 (by omega), ?_⟩
  cases N with
  | zero => omega
  | succ m => simp [List.range'_succ]

/-- Witness for C7 on the concrete two-step plan. -/
theorem claim_C7_ordinals_visited_in_order_witness :
    (process_steps plan6 envs6 [] 5).1 = List.range' 1 2 ∧
    (process_steps plan6 envs6 [] 5).1.Pairwise (· < ·) ∧
    (process_steps plan6 envs6 [] 5).1 ≠ [] :=
  claim_C7_ordinals_visited_in_order plan6 envs6 [] 5 2 rfl (by omega)

/-- C9.  For a remote run whose connection and transfer succeed,
`run_step` reports success exactly when the remote command's stderr is
empty — the remote exit status being invisible to the result — whereas
a local run succeeds exactly when no exception intervened and the
child exited 0; and a remote run that exits 0 while writing to stderr
is a failed attempt of the execute-and-repair loop, consuming a
retry. -/
theorem claim_C9_remote_stderr_local_exit (cfg : ServerConfig)
    (renv : RemoteEnv) (lenv : LocalEnv) (m : Nat) :
    (renv.connectOk = true → renv.transferOk = true →
      ((run_step true (some cfg) renv lenv).1 = true ↔ renv.cmdErr = "")) ∧
    (run_step true (some cfg) { renv with exitStatus := m } lenv =
      run_step true (some cfg) renv lenv) ∧
    ((run_step false none renv lenv).1 = true ↔
      (lenv.raised = false ∧ lenv.exitCode = 0)) ∧
    (∀ (w : StepWorld) (mr : Nat), 1 ≤ mr → w.remoteEnv 0 = renv →
      renv.connectOk = true → renv.transferOk = true →
      renv.exitStatus = 0 → renv.cmdErr ≠ "" →
      ∃ tr, (execute_and_fix_step w mr true (some cfg)).2 =
        StepEvent.exec 0 true false :: tr) := by
  refine ⟨?_, ?_, ?_, ?_⟩
  · intro hc ht
    unfold run_step
    simp only [Bool.and_true, Option.isSome_some, Bool.and_self, if_true,
      hc, ht, Bool.not_true, Bool.false_eq_true, if_false]
    by_cases he : renv.cmdErr == ""
    · simp [he]
      exact (beq_iff_eq ..).1 he
    · simp [he]
      intro hcontra
      exact absurd ((beq_iff_eq ..).2 hcontra) (by simp [he])
  · rfl
  · unfold run_step
    simp only [Bool.false_and, Bool.false_eq_true, if_false]
    by_cases hr : lenv.raised
    · simp [hr]
    · by_cases hx : lenv.exitCode == 0
      · simp [hr, hx]
        exact (beq_iff_eq ..).1 hx
      · simp [hr, hx]
        intro hcontra
        exact absurd ((beq_iff_eq ..).2 hcontra) (by simp [hx])
  · intro w mr hmr hw hc ht hx herr
    cases mr with
    | zero => omega
    | succ f =>
        unfold execute_and_fix_step
        rw [stepLoopGo]
        have hrun : (run_step true (some cfg)
            (w.remoteEnv 0) (w.localEnv 0)).1 = false := by
          rw [hw]
          unfold run_step
          simp [hc, ht, herr]
        simp only [hrun, if_false, Bool.false_eq_true]
        by_cases h2 : w.readResult 0 == ""
        · simp [h2]
        · simp only [h2, if_false, Bool.false_eq_true]
          rcases hfix : w.fixResult 0 with _ | c
          · simp
          · by_cases h3 : c == "" <;> simp [h3]

/-- Witness for C9: a remote run with exit status 0 but nonempty
stderr is a failure; a concrete loop around it starts by consuming the
attempt. -/
theorem claim_C9_remote_stderr_local_exit_witness :
    ((run_step true (some srvB) ⟨true, true, "out", "warning", 0⟩
        ⟨0, "", "", false⟩).1 = true ↔ ("warning" : String) = "") ∧
    (∃ tr, (execute_and_fix_step wRemoteErr 3 true (some srvB)).2 =
      StepEvent.exec 0 true false :: tr) :=
  ⟨(claim_C9_remote_stderr_local_exit srvB ⟨true, true, "out", "warning", 0⟩
      ⟨0, "", "", false⟩ 0).1 rfl rfl,
   (claim_C9_remote_stderr_local_exit srvB ⟨true, true, "out", "warning", 0⟩
      ⟨0, "", "", false⟩ 0).2.2.2 wRemoteErr 3 (by omega) rfl rfl rfl rfl
      (by decide)⟩

/-- An artifact whose class name is derivable. -/
def goodArt : ArtifactInput := ⟨some "001", "step_001", some step1Code⟩

/-- An artifact whose source parses but contains no class definition,
so no class name is derivable from it. -/
def badArt : ArtifactInput :=
  ⟨some "002", "step_002", some (.module [.simple "x = 1"])⟩

/-- Counterexample to C5 as stated.  `badArt` has no derivable
entry-type name, yet assembly over `[goodArt, badArt]` still produces
a composite artifact: the offending artifact is silently skipped
rather than failing assembly. -/
theorem claim_C5_counterexample :
    extractEntry badArt = none ∧
    (assemble_solution [goodArt, badArt] true).isSome = true :=
  ⟨rfl, rfl⟩

/-- C5 as amended.  An artifact whose entry-type name cannot be
derived (or whose filename does not match the step pattern, or whose
content cannot be read back) is skipped, leaving the composite of the
remaining artifacts unchanged; assembly fails exactly when no artifact
contributes an entry. -/
theorem claim_C5_amended_assembly_skips_underivable (xs ys : List ArtifactInput)
    (b : ArtifactInput) (writeOk : Bool) (arts : List ArtifactInput) :
    (extractEntry b = none →
      assemble_solution (xs ++ b :: ys) writeOk =
        assemble_solution (xs ++ ys) writeOk) ∧
    (assemble_solution arts true = none ↔ arts.filterMap extractEntry = []) := by
  constructor
  · intro hb
    unfold assemble_solution
    rw [List.filterMap_append, List.filterMap_cons, hb, ← List.filterMap_append]
  · constructor
    · intro h
      rcases hE : arts.filterMap extractEntry with _ | ⟨e, rest⟩
      · rfl
      · exfalso
        unfold assemble_solution at h
        rw [hE] at h
        have himp := assemble_imports_ne_empty arts e rest hE
        have hbeq : (((e :: rest).foldl (fun a x => a ++ x.1) "") == "") = false := by
          rw [beq_eq_false_iff_ne]
          exact himp
        simp only [hbeq] at h
        simp at h
    · intro h
      unfold assemble_solution
      rw [h]
      simp

/-- Witness for the amended C5: dropping the underivable artifact does
not change the composite. -/
theorem claim_C5_amended_assembly_skips_underivable_witness :
    assemble_solution [goodArt, badArt] true =
      assemble_solution [goodArt] true :=
  (claim_C5_amended_assembly_skips_underivable [goodArt] [] badArt true []).1 rfl

end MetaSolver
